import Mathlib

/-!
# Verification of the `lad` structured logging library

A shallow embedding of the level-gated write pipeline of the `lad`
repository: levels, fields, entries, cores (single destination, Tee
fan-out, Sampler decorator), the Logger orchestration layer with its
crash-safety trace, stack-trace capture with self-filtering, and the
`ladglobal` option-based builder (the latter embedded from
`src/ladkit/ladkit.go`, the only library source present; the core
pipeline itself is modelled from the specification, whose §4 gives a
step-by-step account of every routine).

The pipeline model is trace-based: every observable effect (a write
reaching a sink, a sync, a fallback-channel diagnostic, a raised panic,
a process exit) is an `Event` appended to an explicit state, so ordering
claims (flush-before-abort) and counting claims (exactly one entry per
enabled member) become statements about the event list.
-/

namespace Lad

/-- Modelled from the spec (§3 Level): the ordered severity scale
{Debug, Info, Warn, Error, DPanic, Panic, Fatal}.  The source package
`ladcore` (not under src/) defines these as consecutive integers; the
tests and `ladkit.go` only consume them through comparisons. -/
inductive Level where
  | debug
  | info
  | warn
  | error
  | dpanic
  | panic
  | fatal
deriving DecidableEq, Repr

/-- The numeric value of a level (spec §3: "an integer on a totally
ordered scale"; zap-style numbering with Debug = -1). -/
def Level.toInt : Level → Int
  | .debug => -1
  | .info => 0
  | .warn => 1
  | .error => 2
  | .dpanic => 3
  | .panic => 4
  | .fatal => 5

/-- Modelled from the spec (§3, §4.1): "enabled" means
`entryLevel >= coreThreshold`, a purely numeric comparison. -/
def levelEnabled (threshold lvl : Level) : Bool :=
  threshold.toInt ≤ lvl.toInt

/-- A structured key/value field.  Values are abstracted to strings:
no claim depends on the field-value grammar, only on keys, ordering and
identity. -/
structure Field where
  key : String
  value : String
deriving DecidableEq, Repr

/-- Modelled from the spec (§3 Entry): the immutable unit handed to a
Core.  Timestamp, logger name and caller are omitted: no claim observes
them (the test spy strips the timestamp before asserting). -/
structure Entry where
  level : Level
  message : String
  fields : List Field
deriving DecidableEq, Repr

/-- A write destination (spec §4.3 WriteSyncer).  `failing` models the
test spy destination (`ztest.FailWriter`) whose `Write` always returns
the error `failMsg`; a healthy sink records the entry. -/
structure Sink where
  id : Nat
  failing : Bool
  failMsg : String
deriving DecidableEq, Repr

/-- An observable effect of the pipeline, in occurrence order. -/
inductive Event where
  | wrote (sinkId : Nat) (e : Entry)
  | synced (sinkId : Nat)
  | fallback (msg : String)
  | panicked (msg : String)
  | exited
deriving DecidableEq, Repr

/-- Pipeline state: the sampler's per-(message, level) counters and the
trace of events so far. -/
structure LogState where
  counts : List ((String × Level) × Nat)
  events : List Event
deriving DecidableEq, Repr

/-- The empty initial state. -/
def LogState.init : LogState := { counts := [], events := [] }

/-- Modelled from the spec (§4.4–§4.6): a Core is a single
encoder+destination+enabler unit, a Tee of member cores, or a Sampler
decorating an inner core. -/
inductive Core where
  | ioCore (threshold : Level) (sink : Sink)
  | tee (members : List Core)
  | sampler (firstN : Nat) (every : Nat) (inner : Core)
deriving Repr

mutual

/-- Modelled from the spec (§4.4, §4.5): `Enabled` of an ioCore
delegates to its level enabler; a Tee is enabled iff ANY member is;
a Sampler delegates to the wrapped core. -/
def Core.enabledFor : Core → Level → Bool
  | .ioCore t _, lvl => levelEnabled t lvl
  | .tee ms, lvl => Core.anyEnabled ms lvl
  | .sampler _ _ inner, lvl => inner.enabledFor lvl

/-- Whether any member of a Tee is enabled for the level. -/
def Core.anyEnabled : List Core → Level → Bool
  | [], _ => false
  | c :: cs, lvl => c.enabledFor lvl || Core.anyEnabled cs lvl

end

/-- Modelled from the spec (§4.5): a Tee returns a combined error only
if ANY member failed; error texts are joined. -/
def combineErr : Option String → Option String → Option String
  | none, b => b
  | some a, none => some a
  | some a, some b => some (a ++ "; " ++ b)

/-- Increment the sampler counter for a (message, level) bucket,
returning the new count for that bucket and the updated table
(spec §4.6: per-bucket counters). -/
def bumpCount (counts : List ((String × Level) × Nat)) (key : String × Level) :
    Nat × List ((String × Level) × Nat) :=
  match counts with
  | [] => (1, [(key, 1)])
  | (k, n) :: rest =>
    if k = key then (n + 1, (k, n + 1) :: rest)
    else
      let p := bumpCount rest key
      (p.1, (k, n) :: p.2)

/-- Modelled from the spec (§4.6): within a bucket the first `firstN`
entries always pass; after that only every `every`-th subsequent entry
passes, the rest are dropped silently (not written, not erred). -/
def samplerPasses (firstN every n : Nat) : Bool :=
  n ≤ firstN || (every ≠ 0 && (n - firstN) % every == 0)

mutual

/-- Modelled from the spec (§4.4, §4.5, §4.6): `Core.Write`.
An ioCore appends the entry to its destination, or returns the write
error without recording anything when the destination fails.  A Tee
writes to every member whose own `Enabled` accepts the level, in member
order, combining errors so that one member's failure does not prevent
delivery attempts to the others.  A Sampler bumps the bucket counter
and either delegates to the wrapped core or drops the entry silently. -/
def Core.write : Core → Entry → LogState → Option String × LogState
  | .ioCore _ s, e, st =>
    if s.failing then (some s.failMsg, st)
    else (none, { st with events := st.events ++ [.wrote s.id e] })
  | .tee ms, e, st => Core.writeAll ms e st
  | .sampler firstN every inner, e, st =>
    let p := bumpCount st.counts (e.message, e.level)
    let st1 : LogState := { st with counts := p.2 }
    if samplerPasses firstN every p.1 then inner.write e st1
    else (none, st1)

/-- The Tee member loop: each member is consulted in construction
order; a member is written iff its own `Enabled` accepts the level. -/
def Core.writeAll : List Core → Entry → LogState → Option String × LogState
  | [], _, st => (none, st)
  | c :: cs, e, st =>
    let r1 := if c.enabledFor e.level then c.write e st else (none, st)
    let r2 := Core.writeAll cs e r1.2
    (combineErr r1.1 r2.1, r2.2)

end

mutual

/-- Modelled from the spec (§4.4): `Sync` delegates to the destination;
a Tee syncs every member; a Sampler syncs the wrapped core.  Sink
flushes themselves are modelled as always succeeding — no claim
exercises a sync error. -/
def Core.sync : Core → LogState → LogState
  | .ioCore _ s, st => { st with events := st.events ++ [.synced s.id] }
  | .tee ms, st => Core.syncAll ms st
  | .sampler _ _ inner, st => inner.sync st

/-- Sync every Tee member in construction order. -/
def Core.syncAll : List Core → LogState → LogState
  | [], st => st
  | c :: cs, st => Core.syncAll cs (c.sync st)

end

/-- Modelled from the spec (§4.7): the Logger holds a Core, an ordered
list of pre-attached fields, a caller-capture flag, a stack-trace
threshold and a caller-frame-skip count. -/
structure Logger where
  core : Core
  preFields : List Field
  addCaller : Bool
  callerSkip : Nat
  stackThreshold : Option Level
deriving Repr

/-- Construct a Logger over a core with no pre-attached fields
(the `lad.New` constructor, defaults per spec §4.7). -/
def Logger.new (c : Core) : Logger :=
  { core := c, preFields := [], addCaller := false, callerSkip := 0,
    stackThreshold := none }

/-- Modelled from the spec (§4.7 derivation): "with additional fields"
returns a NEW Logger whose accumulated field list is the parent's list
with the new fields appended; the parent value is not touched. -/
def Logger.With (l : Logger) (fs : List Field) : Logger :=
  { l with preFields := l.preFields ++ fs }

/-- Modelled from the spec (§4.7 derivation): the `AddCallerSkip(n)`
option increases the caller-frame-skip count. -/
def Logger.AddCallerSkip (l : Logger) (n : Nat) : Logger :=
  { l with callerSkip := l.callerSkip + n }

/-- Modelled from the spec (§4.7 derivation): `AddCaller` turns on
caller capture. -/
def Logger.AddCaller (l : Logger) : Logger :=
  { l with addCaller := true }

/-- Modelled from the spec (§4.7 derivation): `AddStacktrace(t)` sets
the stack-capture threshold. -/
def Logger.AddStacktrace (l : Logger) (t : Level) : Logger :=
  { l with stackThreshold := some t }

/-- Modelled from the spec (§4.7 derivation): `WrapCore(f)` replaces
the whole Core through a wrapping function, returning a new Logger. -/
def Logger.WrapCore (l : Logger) (f : Core → Core) : Logger :=
  { l with core := f l.core }

/-- Modelled from the spec (§4.7 steps 1–8): the single internal write
routine every per-level method funnels into.  If the Core rejects the
level the call returns immediately with no effect.  Otherwise the Entry
is built with the pre-attached fields followed by the call-site fields,
`Core.Write` runs, a write error is reported once on the fallback error
channel as "write error: cause" (never by re-entering the Logger), and
for Panic/Fatal the full sync completes BEFORE the abnormal-termination
event is appended. -/
def Logger.log (l : Logger) (lvl : Level) (msg : String) (fs : List Field)
    (st : LogState) : LogState :=
  if l.core.enabledFor lvl then
    let e : Entry := { level := lvl, message := msg, fields := l.preFields ++ fs }
    let r := l.core.write e st
    let st2 : LogState :=
      match r.1 with
      | some c => { r.2 with events := r.2.events ++ [.fallback ("write error: " ++ c)] }
      | none => r.2
    match lvl with
    | .panic =>
      let st3 := l.core.sync st2
      { st3 with events := st3.events ++ [.panicked msg] }
    | .fatal =>
      let st3 := l.core.sync st2
      { st3 with events := st3.events ++ [.exited] }
    | _ => st2
  else st

/-- The entries delivered to sink `sid`, in order, extracted from a
trace. -/
def deliveredTo (sid : Nat) (evs : List Event) : List Entry :=
  evs.filterMap fun ev =>
    match ev with
    | .wrote i e => if i = sid then some e else none
    | _ => none

/-- All delivered entries (sink, entry) in a trace, in order. -/
def writesOf (evs : List Event) : List (Nat × Entry) :=
  evs.filterMap fun ev =>
    match ev with
    | .wrote i e => some (i, e)
    | _ => none

/-- The fallback-error-channel messages in a trace, in order. -/
def fallbacksOf (evs : List Event) : List String :=
  evs.filterMap fun ev =>
    match ev with
    | .fallback m => some m
    | _ => none

/-! ## Stack-trace capture with self-filtering (spec §4.7 steps 4–5) -/

/-- A stack frame as seen by the capture routine.  `function` is the
fully qualified function name; `isLad` marks a frame whose source
identity belongs to the logging library's own packages (the core
package `ladcore` or the public wrapper namespace `lad`), the
identities the test file's `_ladPackages` list matches on. -/
structure Frame where
  function : String
  isLad : Bool
deriving DecidableEq, Repr

/-- Modelled from the spec (§4.7 steps 4–5): capture the stack,
excluding the logging library's own leading dispatch frames — the
visible trace starts at the caller's first non-library frame — then
skip `skip` further frames as requested by the caller-skip option.
Frames below the first non-library frame are NOT stripped even when
they belong to the library (the user-marshal-callback exception).  The
raw `stack` is innermost-first and begins with the library's own
dispatch frames. -/
def takeStacktrace (skip : Nat) (stack : List Frame) : List Frame :=
  (stack.dropWhile fun f => f.isLad).drop skip

/-- Modelled from the spec (§4.7 step 4): the recorded caller location
is the first frame of the capture after the skip — "skip exactly
1 + configured extra skip frames to reach the true call site", where
the `1` stands for the library's own leading dispatch frame(s) removed
by the self-filter. -/
def captureCaller (skip : Nat) (stack : List Frame) : Option Frame :=
  (takeStacktrace skip stack).head?

/-! ## The `ladglobal` builder, embedded from `src/ladkit/ladkit.go` -/

/-- `FileConfig` from `ladkit.go`: parameters for rotating-file
output. -/
structure FileConfig where
  Level : Level
  Filename : String
  MaxSizeMB : Int
  MaxBackups : Int
  MaxAgeDays : Int
  Compress : Bool
deriving DecidableEq, Repr

/-- The aspects of an encoder configuration `ladkit.go` sets: the
timestamp layout given to `EncodeTime` and whether `EncodeLevel` is the
colored capital encoder.  (`NewProductionEncoderConfig` itself lives in
the missing `lad` package; `WithConsole` always overrides its time
encoder, and overrides its level encoder exactly when color is on.) -/
structure EncoderConfig where
  timeFormat : String
  colorLevel : Bool
deriving DecidableEq, Repr

/-- The destination a `ladkit.go` core writes to: `os.Stdout` for
console cores, a lumberjack rotating file for file cores. -/
inductive SinkKind where
  | stdout
  | file (fc : FileConfig)
deriving DecidableEq, Repr

/-- One core as assembled by `ladkit.go`'s `ladcore.NewCore` calls:
a console encoder with the given config, a destination, and a level
threshold. -/
structure CoreSpec where
  encoder : EncoderConfig
  sink : SinkKind
  level : Level
deriving DecidableEq, Repr

/-- `Config` from `ladkit.go`: the collected cores and the caller
flag. -/
structure Config where
  cores : List CoreSpec
  caller : Bool
deriving DecidableEq, Repr

/-- The options `ladglobal` exports; each one is a `Config`
transformer in the source (`type Option func(*Config)`). -/
inductive KitOption where
  | withConsole (level : Level) (enableColor : Bool) (timeFormat : String)
  | withFile (fc : FileConfig)
  | withCaller
deriving DecidableEq, Repr

/-- The default timestamp layout `ladkit.go` falls back to. -/
def defaultTimeFormat : String := "2006-01-02 15:04:05.000"

/-- `WithConsole` from `ladkit.go`: append a console core at the given
level; an empty time format defaults to `defaultTimeFormat`; color
selects the capital-color level encoder. -/
def WithConsole (level : Level) (enableColor : Bool) (timeFormat : String)
    (cfg : Config) : Config :=
  let tf := if timeFormat = "" then defaultTimeFormat else timeFormat
  { cfg with cores := cfg.cores ++
      [{ encoder := { timeFormat := tf, colorLevel := enableColor },
         sink := .stdout, level := level }] }

/-- `WithFile` from `ladkit.go`: append a core writing through a
lumberjack rotating-file sink, console-encoded with the default
timestamp format and the capital (uncolored) level encoder, at
`fc.Level`. -/
def WithFile (fc : FileConfig) (cfg : Config) : Config :=
  { cfg with cores := cfg.cores ++
      [{ encoder := { timeFormat := defaultTimeFormat, colorLevel := false },
         sink := .file fc, level := fc.Level }] }

/-- `WithCaller` from `ladkit.go`: enable caller information. -/
def WithCaller (cfg : Config) : Config :=
  { cfg with caller := true }

/-- Apply one option to a config, as the source's
`for _, opt := range opts { opt(cfg) }` loop does. -/
def KitOption.apply : KitOption → Config → Config
  | .withConsole lvl color tf, cfg => WithConsole lvl color tf cfg
  | .withFile fc, cfg => WithFile fc cfg
  | .withCaller, cfg => WithCaller cfg

/-- The logger `ladglobal.New` builds and installs: a Tee of the
configured cores (in order) plus the caller option. -/
structure BuiltLogger where
  teeMembers : List CoreSpec
  addCaller : Bool
deriving DecidableEq, Repr

/-- `New` from `ladkit.go`: fold the options over an empty config,
fall back to a default colored Debug console core when no core was
added, combine the cores with `ladcore.NewTee`, build the logger (with
`lad.AddCaller` iff requested) and make it the process-wide global via
`lad.ReplaceGlobals`.  The function returns the logger it installs;
`installGlobal` below models the replacement of the previous global. -/
def New (opts : List KitOption) : BuiltLogger :=
  let cfg := opts.foldl (fun c o => o.apply c) { cores := [], caller := false }
  let cfg := if cfg.cores.isEmpty then WithConsole .debug true "" cfg else cfg
  { teeMembers := cfg.cores, addCaller := cfg.caller }

/-- `lad.ReplaceGlobals` as used by `New`: the previous global logger
is discarded and the freshly built one takes its place. -/
def installGlobal (opts : List KitOption) (_prev : BuiltLogger) : BuiltLogger :=
  New opts

/-- The cores one option appends (derived from `KitOption.apply` at the
empty configuration; `apply_cores` below shows every option appends
exactly this list whatever the incoming configuration). -/
def coresAdded (o : KitOption) : List CoreSpec :=
  (o.apply { cores := [], caller := false }).cores

/-- A frame of the logging library's own dispatch path. -/
def ladFrame (fn : String) : Frame := { function := fn, isLad := true }

/-- A frame of user (non-library) code. -/
def userFrame (fn : String) : Frame := { function := fn, isLad := false }

/-- The raw stack of `TestStacktraceWithCallerSkip`: the library's own
dispatch frames, the two anonymous wrappers, the `withLogger` helper,
the test function and the test runner, innermost first. -/
def callerSkipStack : List Frame :=
  [ladFrame "lad.Logger.Error", ladFrame "ladcore.ioCore.Write",
   userFrame "lad_test.TestStacktraceWithCallerSkip.func1.1",
   userFrame "lad_test.TestStacktraceWithCallerSkip.func1",
   userFrame "lad_test.withLogger",
   userFrame "lad_test.TestStacktraceWithCallerSkip",
   userFrame "testing.tRunner"]

/-- A healthy concrete destination used by witnesses. -/
def skOk : Sink := { id := 0, failing := false, failMsg := "" }

/-- The spy destination of `ztest.FailWriter`: every write fails with
the cause "failed". -/
def skFail : Sink := { id := 0, failing := true, failMsg := "failed" }

/-! ## Helper lemmas -/

theorem writesOf_append (a b : List Event) :
    writesOf (a ++ b) = writesOf a ++ writesOf b :=
  List.filterMap_append a b _

theorem fallbacksOf_append (a b : List Event) :
    fallbacksOf (a ++ b) = fallbacksOf a ++ fallbacksOf b :=
  List.filterMap_append a b _

theorem deliveredTo_append (sid : Nat) (a b : List Event) :
    deliveredTo sid (a ++ b) = deliveredTo sid a ++ deliveredTo sid b :=
  List.filterMap_append a b _

theorem combineErr_isSome (a b : Option String) :
    (combineErr a b).isSome = (a.isSome || b.isSome) := by
  cases a <;> cases b <;> rfl

/-- Dropping the while-prefix ignores a leading block that satisfies
the predicate wholesale. -/
theorem dropWhile_append_of_forall {α : Type} (p : α → Bool) (pre l : List α)
    (h : ∀ f ∈ pre, p f = true) :
    (pre ++ l).dropWhile p = l.dropWhile p := by
  induction pre with
  | nil => rfl
  | cons a as ih =>
    have ha : p a = true := h a (List.mem_cons_self a as)
    simp only [List.cons_append, List.dropWhile_cons, ha, if_true]
    exact ih fun f hf => h f (List.mem_cons_of_mem a hf)

/-- Entries delivered to ioCore members of a Tee, one per enabled
healthy member, in member construction order. -/
theorem writeAll_ioCores (members : List (Level × Sink)) (e : Entry) (st : LogState) :
    (Core.writeAll (members.map fun p => .ioCore p.1 p.2) e st).2.events =
      st.events ++ members.filterMap (fun p =>
        if levelEnabled p.1 e.level && !p.2.failing
        then some (.wrote p.2.id e) else none) ∧
    (Core.writeAll (members.map fun p => .ioCore p.1 p.2) e st).2.counts = st.counts ∧
    (Core.writeAll (members.map fun p => .ioCore p.1 p.2) e st).1.isSome =
      (members.any fun p => levelEnabled p.1 e.level && p.2.failing) := by
  induction members generalizing st with
  | nil => simp [Core.writeAll]
  | cons p ps ih =>
    by_cases hE : levelEnabled p.1 e.level
    · by_cases hF : p.2.failing
      · have := ih st
        simp_all [Core.writeAll, Core.write, Core.enabledFor, hE, hF, combineErr_isSome]
      · have := ih { st with events := st.events ++ [.wrote p.2.id e] }
        simp_all [Core.writeAll, Core.write, Core.enabledFor, hE, hF, combineErr_isSome]
    · have := ih st
      simp_all [Core.writeAll, Core.write, Core.enabledFor, hE, combineErr_isSome]

/-! ## Claim theorems -/

/-- C1: calling `Logger.Panic` at an enabled level records the entry at
the destination and syncs it, in that order, strictly before the
abnormal-termination event; the trace shows the call never aborts
without the entry having been recorded, and the abort always follows. -/
theorem panic_records_then_aborts (T : Level) (s : Sink) (msg : String)
    (fs : List Field) (st : LogState)
    (hs : s.failing = false) (hT : levelEnabled T .panic = true) :
    ((Logger.new (.ioCore T s)).log .panic msg fs st).events =
      st.events ++
        [.wrote s.id { level := .panic, message := msg, fields := fs },
         .synced s.id, .panicked msg] := by
  simp [Logger.log, Logger.new, Core.enabledFor, Core.write, Core.sync, hs, hT]

/-- Witness for C1: a Debug-thresholded logger panicking with message
"m" writes, syncs and only then panics. -/
theorem panic_records_then_aborts_witness :
    ((Logger.new (.ioCore .debug { id := 0, failing := false, failMsg := "" })).log
        .panic "m" [] LogState.init).events =
      [.wrote 0 { level := .panic, message := "m", fields := [] },
       .synced 0, .panicked "m"] := by
  exact (panic_records_then_aborts .debug
    { id := 0, failing := false, failMsg := "" } "m" [] LogState.init rfl rfl).trans
    (by decide)

/-- C2: a log call at level L against a core thresholded at T delivers
exactly one entry when L is at or above T and zero entries when L is
below T. -/
theorem threshold_gates_delivery (T L : Level) (s : Sink) (msg : String)
    (fs : List Field) (st : LogState) (hs : s.failing = false) :
    writesOf ((Logger.new (.ioCore T s)).log L msg fs st).events =
      writesOf st.events ++
        (if levelEnabled T L then
          [(s.id, { level := L, message := msg, fields := fs })] else []) := by
  by_cases hT : levelEnabled T L = true
  · cases L <;>
      simp [Logger.log, Logger.new, Core.enabledFor, Core.write, Core.sync, hs,
        hT, writesOf_append, writesOf]
  · rw [Bool.not_eq_true] at hT
    simp [Logger.log, Logger.new, Core.enabledFor, hT]

/-- Witness for C2: against a Warn-thresholded logger, Info and Debug
calls emit nothing while Warn, Error and Panic calls each emit exactly
one entry. -/
theorem threshold_gates_delivery_witness :
    writesOf ((Logger.new (.ioCore .warn skOk)).log .info "i" [] LogState.init).events
        = [] ∧
    writesOf ((Logger.new (.ioCore .warn skOk)).log .debug "d" [] LogState.init).events
        = [] ∧
    writesOf ((Logger.new (.ioCore .warn skOk)).log .warn "w" [] LogState.init).events
        = [(0, { level := .warn, message := "w", fields := [] })] ∧
    writesOf ((Logger.new (.ioCore .warn skOk)).log .error "e" [] LogState.init).events
        = [(0, { level := .error, message := "e", fields := [] })] ∧
    writesOf ((Logger.new (.ioCore .warn skOk)).log .panic "p" [] LogState.init).events
        = [(0, { level := .panic, message := "p", fields := [] })] := by
  exact
    ⟨(threshold_gates_delivery .warn .info skOk "i" [] LogState.init rfl).trans
        (by decide),
     (threshold_gates_delivery .warn .debug skOk "d" [] LogState.init rfl).trans
        (by decide),
     (threshold_gates_delivery .warn .warn skOk "w" [] LogState.init rfl).trans
        (by decide),
     (threshold_gates_delivery .warn .error skOk "e" [] LogState.init rfl).trans
        (by decide),
     (threshold_gates_delivery .warn .panic skOk "p" [] LogState.init rfl).trans
        (by decide)⟩

/-- C3: a logger over a failing destination reports exactly one
fallback-error-channel message "write error: cause" per enabled call,
delivers zero entries, and a subsequent call proceeds the same way
rather than being blocked. -/
theorem write_failure_one_fallback (T L : Level) (s : Sink) (m1 m2 : String)
    (f1 f2 : List Field) (st : LogState)
    (hs : s.failing = true) (hL : levelEnabled T L = true) :
    fallbacksOf ((Logger.new (.ioCore T s)).log L m1 f1 st).events =
      fallbacksOf st.events ++ ["write error: " ++ s.failMsg] ∧
    writesOf ((Logger.new (.ioCore T s)).log L m1 f1 st).events = writesOf st.events ∧
    fallbacksOf ((Logger.new (.ioCore T s)).log L m2 f2
        ((Logger.new (.ioCore T s)).log L m1 f1 st)).events =
      fallbacksOf st.events ++
        ["write error: " ++ s.failMsg, "write error: " ++ s.failMsg] ∧
    writesOf ((Logger.new (.ioCore T s)).log L m2 f2
        ((Logger.new (.ioCore T s)).log L m1 f1 st)).events = writesOf st.events := by
  cases L <;>
    simp [Logger.log, Logger.new, Core.enabledFor, Core.write, Core.sync, hs, hL,
      fallbacksOf_append, writesOf_append, fallbacksOf, writesOf]

/-- Witness for C3: the `ztest.FailWriter` scenario — an Info call on a
Debug-thresholded logger over a destination failing with "failed"
yields the single message "write error: failed" and no delivery, and a
second call appends one more. -/
theorem write_failure_one_fallback_witness :
    fallbacksOf ((Logger.new (.ioCore .debug skFail)).log .info "foo" []
        LogState.init).events = ["write error: failed"] ∧
    writesOf ((Logger.new (.ioCore .debug skFail)).log .info "foo" []
        LogState.init).events = [] ∧
    fallbacksOf ((Logger.new (.ioCore .debug skFail)).log .info "bar" []
        ((Logger.new (.ioCore .debug skFail)).log .info "foo" []
          LogState.init)).events =
      ["write error: failed", "write error: failed"] := by
  have h := write_failure_one_fallback .debug .info skFail "foo" "bar" [] []
    LogState.init rfl rfl
  exact ⟨h.1.trans (by decide), h.2.1.trans (by decide), h.2.2.1.trans (by decide)⟩

/-- C4: a Tee of member cores writes, in member construction order,
exactly one entry to every member whose own enabler accepts the level
and whose destination is healthy — a failing member never prevents
delivery attempts to the remaining members — the sampler counters are
untouched, and the combined result is an error exactly when at least
one enabled member failed. -/
theorem tee_fanout_isolation (members : List (Level × Sink)) (e : Entry)
    (st : LogState) :
    (Core.write (.tee (members.map fun p => .ioCore p.1 p.2)) e st).2.events =
      st.events ++ members.filterMap (fun p =>
        if levelEnabled p.1 e.level && !p.2.failing
        then some (.wrote p.2.id e) else none) ∧
    (Core.write (.tee (members.map fun p => .ioCore p.1 p.2)) e st).2.counts =
      st.counts ∧
    (Core.write (.tee (members.map fun p => .ioCore p.1 p.2)) e st).1.isSome =
      (members.any fun p => levelEnabled p.1 e.level && p.2.failing) := by
  have h := writeAll_ioCores members e st
  simpa [Core.write] using h

/-- C5: the captured stack contains no library frame when the raw
stack is library dispatch frames followed by user frames (the direct
log call), while for a stack whose first non-library frame is a
user-supplied field-marshal callback, that frame and EVERYTHING below
it — library frames included — are retained verbatim. -/
theorem stacktrace_filters_lad_frames (pre post : List Frame) (m : Frame)
    (rest : List Frame)
    (hpre : ∀ f ∈ pre, f.isLad = true)
    (hpost : ∀ f ∈ post, f.isLad = false)
    (hm : m.isLad = false) :
    (∀ f ∈ takeStacktrace 0 (pre ++ post), f.isLad = false) ∧
    takeStacktrace 0 (pre ++ m :: rest) = m :: rest := by
  constructor
  · intro f hf
    unfold takeStacktrace at hf
    rw [dropWhile_append_of_forall _ pre post hpre, List.drop_zero] at hf
    exact hpost f ((List.dropWhile_sublist _).subset hf)
  · unfold takeStacktrace
    rw [dropWhile_append_of_forall _ pre (m :: rest) hpre, List.drop_zero]
    simp [List.dropWhile_cons, hm]

/-- Witness for C5: the `TestStacktraceFiltersladMarshal` shape — the
capture of a direct Error call holds no library frame, and the capture
taken inside the marshal callback starts at the callback frame and
keeps the library encoder frame beneath it. -/
theorem stacktrace_filters_lad_frames_witness :
    (∀ f ∈ takeStacktrace 0
        ([ladFrame "lad.Logger.Error", ladFrame "ladcore.ioCore.Write"] ++
         [userFrame "lad_test.TestStacktraceFiltersladLog",
          userFrame "testing.tRunner"]), f.isLad = false) ∧
    takeStacktrace 0
        ([ladFrame "lad.Logger.Warn", ladFrame "ladcore.ioCore.Write"] ++
         userFrame "lad_test.TestStacktraceFiltersladMarshal.func1" ::
          [ladFrame "ladcore.consoleEncoder.EncodeEntry",
           userFrame "lad_test.TestStacktraceFiltersladMarshal",
           userFrame "testing.tRunner"]) =
      userFrame "lad_test.TestStacktraceFiltersladMarshal.func1" ::
        [ladFrame "ladcore.consoleEncoder.EncodeEntry",
         userFrame "lad_test.TestStacktraceFiltersladMarshal",
         userFrame "testing.tRunner"] :=
  stacktrace_filters_lad_frames
    [ladFrame "lad.Logger.Error", ladFrame "ladcore.ioCore.Write"]
    [userFrame "lad_test.TestStacktraceFiltersladLog",
     userFrame "testing.tRunner"]
    (userFrame "lad_test.TestStacktraceFiltersladMarshal.func1")
    [ladFrame "ladcore.consoleEncoder.EncodeEntry",
     userFrame "lad_test.TestStacktraceFiltersladMarshal",
     userFrame "testing.tRunner"]
    (by decide) (by decide) (by decide)

/-- C6: the extra caller-skip N shifts the capture by exactly N frames
— the skipped capture is the unskipped capture with its first N frames
dropped, and the recorded caller is its Nth frame — and on the nested
test stack, skip 2 passes over both anonymous wrapper frames while the
surrounding test function is still reported, whereas skip 0 reports
the innermost wrapper. -/
theorem caller_skip_shifts_frames (n : Nat) (stack : List Frame) :
    takeStacktrace n stack = (takeStacktrace 0 stack).drop n ∧
    captureCaller n stack = (takeStacktrace 0 stack)[n]? ∧
    takeStacktrace 2 callerSkipStack =
      [userFrame "lad_test.withLogger",
       userFrame "lad_test.TestStacktraceWithCallerSkip",
       userFrame "testing.tRunner"] ∧
    captureCaller 0 callerSkipStack =
      some (userFrame "lad_test.TestStacktraceWithCallerSkip.func1.1") := by
  refine ⟨rfl, ?_, by decide, by decide⟩
  simp [captureCaller, takeStacktrace, List.head?_drop]

/-- C7: the written entry's field list is exactly the pre-attached
fields followed by the call-site fields, in call order and without
deduplication. -/
theorem fields_preattached_then_callsite (T lvl : Level) (s : Sink)
    (pre fs : List Field) (msg : String) (st : LogState)
    (hs : s.failing = false) (hL : levelEnabled T lvl = true) :
    writesOf (((Logger.new (.ioCore T s)).With pre).log lvl msg fs st).events =
      writesOf st.events ++
        [(s.id, { level := lvl, message := msg, fields := pre ++ fs })] := by
  cases lvl <;>
    simp [Logger.log, Logger.With, Logger.new, Core.enabledFor, Core.write,
      Core.sync, hs, hL, writesOf_append, writesOf]

/-- Witness for C7: a pre-attached field and a call-site field sharing
the key "k" both appear in the output, pre-attached first. -/
theorem fields_preattached_then_callsite_witness :
    writesOf (((Logger.new (.ioCore .debug skOk)).With
        [{ key := "k", value := "v1" }]).log .info "msg"
        [{ key := "k", value := "v2" }] LogState.init).events =
      [(0, { level := .info, message := "msg",
             fields := [{ key := "k", value := "v1" },
                        { key := "k", value := "v2" }] })] :=
  (fields_preattached_then_callsite .debug .info skOk
    [{ key := "k", value := "v1" }] [{ key := "k", value := "v2" }] "msg"
    LogState.init rfl rfl).trans (by decide)

/-- C8: a Sampler with firstN = 1 and every = 2 over a healthy core,
fed 5 calls sharing one (message, level) bucket (tagged 1..5 through a
field), delivers exactly the 1st, 3rd and 5th entries, drops the 2nd
and 4th silently, and raises nothing on the fallback error channel. -/
theorem sampler_first1_every2_delivers_135 :
    ((List.range 5).foldl
        (fun st i =>
          (Logger.new (.sampler 1 2 (.ioCore .debug skOk))).log .info "m"
            [{ key := "i", value := toString (i + 1) }] st)
        LogState.init).events =
      [.wrote 0 { level := .info, message := "m",
                  fields := [{ key := "i", value := "1" }] },
       .wrote 0 { level := .info, message := "m",
                  fields := [{ key := "i", value := "3" }] },
       .wrote 0 { level := .info, message := "m",
                  fields := [{ key := "i", value := "5" }] }] ∧
    fallbacksOf (((List.range 5).foldl
        (fun st i =>
          (Logger.new (.sampler 1 2 (.ioCore .debug skOk))).log .info "m"
            [{ key := "i", value := toString (i + 1) }] st)
        LogState.init).events) = [] := by
  constructor <;> decide

/-- C9: derivations build new Logger values — children extend the
parent's field list, option derivations change only their targeted
component — and two children derived from the same parent log
independently: each one's delivered entry carries its own added field
and never the sibling's, while the parent's own output carries
neither. -/
theorem derivation_yields_independent_children (T lvl : Level) (s : Sink)
    (pre : List Field) (f1 f2 : Field) (msg : String) (st : LogState)
    (k : Nat) (t : Level) (g : Core → Core)
    (hs : s.failing = false) (hL : levelEnabled T lvl = true)
    (h1 : f1 ∉ pre) (h2 : f2 ∉ pre) (hne : f1 ≠ f2) :
    (((Logger.new (.ioCore T s)).With pre).With [f1]).preFields = pre ++ [f1] ∧
    (((Logger.new (.ioCore T s)).With pre).With [f2]).preFields = pre ++ [f2] ∧
    ((Logger.new (.ioCore T s)).With pre).preFields = pre ∧
    deliveredTo s.id
        ((((Logger.new (.ioCore T s)).With pre).With [f1]).log lvl msg [] st).events =
      deliveredTo s.id st.events ++
        [{ level := lvl, message := msg, fields := pre ++ [f1] }] ∧
    deliveredTo s.id
        ((((Logger.new (.ioCore T s)).With pre).With [f2]).log lvl msg [] st).events =
      deliveredTo s.id st.events ++
        [{ level := lvl, message := msg, fields := pre ++ [f2] }] ∧
    deliveredTo s.id
        (((Logger.new (.ioCore T s)).With pre).log lvl msg [] st).events =
      deliveredTo s.id st.events ++
        [{ level := lvl, message := msg, fields := pre }] ∧
    (f1 ∈ pre ++ [f1] ∧ f2 ∉ pre ++ [f1]) ∧
    (f2 ∈ pre ++ [f2] ∧ f1 ∉ pre ++ [f2]) ∧
    (f1 ∉ pre ∧ f2 ∉ pre) ∧
    ((((Logger.new (.ioCore T s)).With pre).AddCallerSkip k).preFields = pre ∧
     (((Logger.new (.ioCore T s)).With pre).AddCallerSkip k).callerSkip =
       ((Logger.new (.ioCore T s)).With pre).callerSkip + k) ∧
    ((((Logger.new (.ioCore T s)).With pre).AddStacktrace t).preFields = pre ∧
     (((Logger.new (.ioCore T s)).With pre).AddStacktrace t).stackThreshold =
       some t) ∧
    ((((Logger.new (.ioCore T s)).With pre).AddCaller).preFields = pre ∧
     (((Logger.new (.ioCore T s)).With pre).AddCaller).addCaller = true) ∧
    ((((Logger.new (.ioCore T s)).With pre).WrapCore g).preFields = pre ∧
     (((Logger.new (.ioCore T s)).With pre).WrapCore g).core = g (.ioCore T s)) := by
  refine ⟨rfl, rfl, by simp [Logger.With, Logger.new], ?_, ?_, ?_, ?_, ?_,
    ⟨h1, h2⟩, ⟨rfl, rfl⟩, ⟨rfl, rfl⟩, ⟨rfl, rfl⟩, ⟨rfl, rfl⟩⟩
  · cases lvl <;>
      simp [Logger.log, Logger.With, Logger.new, Core.enabledFor, Core.write,
        Core.sync, hs, hL, deliveredTo_append, deliveredTo]
  · cases lvl <;>
      simp [Logger.log, Logger.With, Logger.new, Core.enabledFor, Core.write,
        Core.sync, hs, hL, deliveredTo_append, deliveredTo]
  · cases lvl <;>
      simp [Logger.log, Logger.With, Logger.new, Core.enabledFor, Core.write,
        Core.sync, hs, hL, deliveredTo_append, deliveredTo]
  · exact ⟨by simp, by simp [hne.symm, h2]⟩
  · exact ⟨by simp, by simp [hne, h1]⟩

/-- Witness for C9: two siblings of a fresh parent each deliver only
their own field. -/
theorem derivation_yields_independent_children_witness :
    deliveredTo 0
        (((Logger.new (.ioCore .debug skOk)).With [{ key := "c1", value := "v" }]).log
          .info "m" [] LogState.init).events =
      [{ level := .info, message := "m",
         fields := [{ key := "c1", value := "v" }] }] ∧
    deliveredTo 0
        (((Logger.new (.ioCore .debug skOk)).With [{ key := "c2", value := "v" }]).log
          .info "m" [] LogState.init).events =
      [{ level := .info, message := "m",
         fields := [{ key := "c2", value := "v" }] }] ∧
    ({ key := "c2", value := "v" } : Field) ∉
      [({ key := "c1", value := "v" } : Field)] := by
  have h := derivation_yields_independent_children .debug .info skOk []
    { key := "c1", value := "v" } { key := "c2", value := "v" } "m" LogState.init
    0 .error id rfl rfl (by decide) (by decide) (by decide)
  exact ⟨h.2.2.2.1.trans (by decide), h.2.2.2.2.1.trans (by decide), by decide⟩

/-- Every `ladglobal` option appends a fixed list of cores to whatever
configuration it is given. -/
theorem apply_cores (o : KitOption) (c : Config) :
    (o.apply c).cores = c.cores ++ coresAdded o := by
  cases o <;> simp [KitOption.apply, WithConsole, WithFile, WithCaller, coresAdded]

/-- Folding the options over a configuration appends their cores in
option order. -/
theorem foldl_cores (opts : List KitOption) (c : Config) :
    (opts.foldl (fun cf o => o.apply cf) c).cores =
      c.cores ++ opts.flatMap coresAdded := by
  induction opts generalizing c with
  | nil => simp
  | cons o os ih => simp [List.foldl_cons, ih, apply_cores]

/-- C10: `ladglobal.New` replaces the global logger with a freshly
built one — the installed value depends only on the options, not on
the previous global — whose Tee members are exactly the cores the
options appended, in option order; with no core-adding option the Tee
holds the single default core: a colored console core on stdout at
DebugLevel with the default timestamp format. -/
theorem global_new_composes_cores (opts : List KitOption) (prev : BuiltLogger) :
    installGlobal opts prev = New opts ∧
    (New opts).teeMembers =
      (if opts.flatMap coresAdded = [] then
        [{ encoder := { timeFormat := defaultTimeFormat, colorLevel := true },
           sink := .stdout, level := .debug }]
       else opts.flatMap coresAdded) := by
  refine ⟨rfl, ?_⟩
  have hc := foldl_cores opts { cores := [], caller := false }
  simp only [New]
  by_cases h : opts.flatMap coresAdded = []
  · simp [hc, h, WithConsole, defaultTimeFormat]
  · simp [hc, h, List.isEmpty_iff]

end Lad
